import Mathlib

/-!
Verification of the rate-limiting and credential-gating core of the
Astrologer-API Geonames integration.

The Python sources embedded here are:
  - app/geonames/rate_limiter.py    (class RateLimiter)
  - app/geonames/credential_manager.py  (class CredentialManager)
  - app/routers/geonames_router.py  (handlers geonames_search, geonames_timezone)

Modelling conventions:
  - wall-clock instants (Python time.time() / datetime.now()) are exact
    rationals, passed explicitly as a `now` argument to each operation;
  - Python dict counters (defaultdict(int)) are total functions String → ℕ;
  - the minute/hour keys derived from datetime.now() are opaque String inputs;
  - methods that mutate `self` return the new state explicitly.
-/

namespace AstroGeo

/-- State of `RateLimiter` (app/geonames/rate_limiter.py, __init__).
Field names follow the Python attributes; the asyncio lock is not part of the
sequential state. -/
structure RateLimiter where
  requests_per_minute : ℕ
  requests_per_hour : ℕ
  request_timestamps : List ℚ
  requests_by_minute : String → ℕ
  requests_by_hour : String → ℕ

/-- A freshly constructed limiter: `RateLimiter(requests_per_minute, requests_per_hour)`
starts with no recorded timestamps and all-zero per-key counters. -/
def RateLimiter.init (rpm rph : ℕ) : RateLimiter :=
  ⟨rpm, rph, [], fun _ => 0, fun _ => 0⟩

/-- `RateLimiter._cleanup_old_requests`: keep only timestamps `ts` with
`now - ts < 3600`. -/
def cleanup_old_requests (now : ℚ) (l : List ℚ) : List ℚ :=
  l.filter (fun ts => decide (now - ts < 3600))

/-- `len([ts for ts in l if now - ts <= 60])`, the minute-window count used in
`is_allowed` and `get_usage_stats`. -/
def minute_count (l : List ℚ) (now : ℚ) : ℕ :=
  (l.filter (fun ts => decide (now - ts ≤ 60))).length

/-- `len([ts for ts in l if now - ts <= 3600])`, the hour-window count used in
`is_allowed` and `get_usage_stats`. -/
def hour_count (l : List ℚ) (now : ℚ) : ℕ :=
  (l.filter (fun ts => decide (now - ts ≤ 3600))).length

/-- `RateLimiter.is_allowed`: prune, count both windows over the pruned list,
reject (returning the pruned state) when a count has reached its limit,
otherwise append `now` and bump the per-key dict counters.
`current_minute` and `current_hour` are the strings `_get_minute_key()` and
`_get_hour_key()` would produce. -/
def RateLimiter.is_allowed (rl : RateLimiter) (now : ℚ)
    (current_minute current_hour : String) : Bool × RateLimiter :=
  let ts := cleanup_old_requests now rl.request_timestamps
  let mc := minute_count ts now
  let hc := hour_count ts now
  if rl.requests_per_minute ≤ mc then
    (false, { rl with request_timestamps := ts })
  else if rl.requests_per_hour ≤ hc then
    (false, { rl with request_timestamps := ts })
  else
    (true,
      { rl with
        request_timestamps := ts ++ [now]
        requests_by_minute := fun k =>
          if k = current_minute then rl.requests_by_minute k + 1
          else rl.requests_by_minute k
        requests_by_hour := fun k =>
          if k = current_hour then rl.requests_by_hour k + 1
          else rl.requests_by_hour k })

/-- One window's entry in the dict returned by `get_usage_stats`
(keys count / limit / remaining / percent_used). -/
structure WindowUsage where
  count : ℕ
  limit : ℕ
  remaining : ℤ
  percent_used : ℚ
deriving DecidableEq

/-- The dict returned by `get_usage_stats` (keys current_minute / current_hour). -/
structure UsageStats where
  current_minute : WindowUsage
  current_hour : WindowUsage
deriving DecidableEq

/-- `RateLimiter.get_usage_stats`: prune, then report both windows; the pruned
list is the only state change (no timestamp is appended, no counter bumped). -/
def RateLimiter.get_usage_stats (rl : RateLimiter) (now : ℚ) :
    UsageStats × RateLimiter :=
  let ts := cleanup_old_requests now rl.request_timestamps
  let mc := minute_count ts now
  let hc := hour_count ts now
  (⟨⟨mc, rl.requests_per_minute,
      max 0 ((rl.requests_per_minute : ℤ) - (mc : ℤ)),
      if 0 < rl.requests_per_minute
        then (mc : ℚ) / (rl.requests_per_minute : ℚ) * 100 else 0⟩,
    ⟨hc, rl.requests_per_hour,
      max 0 ((rl.requests_per_hour : ℤ) - (hc : ℤ)),
      if 0 < rl.requests_per_hour
        then (hc : ℚ) / (rl.requests_per_hour : ℚ) * 100 else 0⟩⟩,
   { rl with request_timestamps := ts })

/-- State of `CredentialManager` (app/geonames/credential_manager.py).
`username` is `settings.geonames_username`, an optional string; the fields
`last_validation` / `validation_result` model the Python attributes
`_last_validation` / `_validation_result` (both `None` at construction). -/
structure CredentialManager where
  username : Option String
  last_validation : Option ℚ
  validation_result : Option Bool
deriving DecidableEq

/-- `CredentialManager.is_credential_valid`: `bool(self.username)` — false for
`None` and for the empty string, true otherwise. Pure: it takes no state and
returns no state. -/
def CredentialManager.is_credential_valid (cm : CredentialManager) : Bool :=
  match cm.username with
  | none => false
  | some s => decide (s ≠ "")

/-- The dict returned by `validate_credential`: `is_valid`, `last_checked`
(the isoformat rendering of the recorded instant, modelled by the instant
itself), and the optional `error` message. -/
structure ValidationResult where
  is_valid : Bool
  last_checked : Option ℚ
  error : Option String
deriving DecidableEq

/-- `CredentialManager.validate_credential`: record `now` and the validity
outcome, and return a result carrying the outcome, the timestamp of the check,
and — only when invalid — the message "Geonames username not configured". -/
def CredentialManager.validate_credential (cm : CredentialManager) (now : ℚ) :
    ValidationResult × CredentialManager :=
  let is_valid := cm.is_credential_valid
  let cm' : CredentialManager :=
    { cm with last_validation := some now, validation_result := some is_valid }
  (⟨is_valid, cm'.last_validation,
    if is_valid then none else some "Geonames username not configured"⟩,
   cm')

/-- The dict returned by `get_current_credential_info`. -/
structure CredentialInfo where
  username : Option String
  is_valid : Bool
  last_validation : Option ℚ
  validation_result : Option Bool
deriving DecidableEq

/-- `CredentialManager.get_current_credential_info`: a pure read of the state. -/
def CredentialManager.get_current_credential_info (cm : CredentialManager) :
    CredentialInfo :=
  ⟨cm.username, cm.is_credential_valid, cm.last_validation, cm.validation_result⟩

/-- `CredentialManager.needs_rotation`: placeholder, always `False`. -/
def CredentialManager.needs_rotation (_cm : CredentialManager) : Bool :=
  false

/-- `CredentialManager.rotate_credential`: placeholder, logs and returns
`False`; the state is untouched. -/
def CredentialManager.rotate_credential (cm : CredentialManager) :
    Bool × CredentialManager :=
  (false, cm)

/-- Gating logic of the `geonames_search` handler
(app/routers/geonames_router.py): the rate limiter is consulted first (429 on
rejection), then the credential (401 when invalid), then the upstream service
(`service_result`: `none` models the service returning `None`, giving 500).
The returned ℕ is the HTTP status code; the RateLimiter state is threaded. -/
def geonames_search (cm : CredentialManager) (rl : RateLimiter) (now : ℚ)
    (current_minute current_hour : String) (service_result : Option Unit) :
    ℕ × RateLimiter :=
  let r := rl.is_allowed now current_minute current_hour
  if r.1 = false then (429, r.2)
  else if cm.is_credential_valid = false then (401, r.2)
  else
    match service_result with
    | none => (500, r.2)
    | some _ => (200, r.2)

/-- Gating logic of the `geonames_timezone` handler: identical gate order to
`geonames_search`, with `get_timezone` as the upstream call. -/
def geonames_timezone (cm : CredentialManager) (rl : RateLimiter) (now : ℚ)
    (current_minute current_hour : String) (service_result : Option Unit) :
    ℕ × RateLimiter :=
  let r := rl.is_allowed now current_minute current_hour
  if r.1 = false then (429, r.2)
  else if cm.is_credential_valid = false then (401, r.2)
  else
    match service_result with
    | none => (500, r.2)
    | some _ => (200, r.2)

/-- C8: `is_credential_valid` is a pure function of the configured identity
string (pure by its Lean type: it consumes no state and returns none): it is
`true` exactly when the identity is present and non-empty, hence `false` when
the identity is absent or empty and `true` for every non-empty identity. -/
theorem is_credential_valid_iff (cm : CredentialManager) :
    cm.is_credential_valid = true ↔ ∃ s, cm.username = some s ∧ s ≠ "" := by
  cases h : cm.username with
  | none => simp [CredentialManager.is_credential_valid, h]
  | some s => simp [CredentialManager.is_credential_valid, h]

/-- C9: the configured identity is unchanged by every state-returning public
operation (`validate_credential`, `rotate_credential`; the remaining public
operations are pure reads by their Lean types), `needs_rotation` is constantly
`false`, and `rotate_credential` always returns `false` with the state intact
(it is a total function, so it never throws). -/
theorem credential_identity_immutable (cm : CredentialManager) (now : ℚ) :
    cm.needs_rotation = false ∧
    cm.rotate_credential = (false, cm) ∧
    (cm.validate_credential now).2.username = cm.username ∧
    cm.rotate_credential.2.username = cm.username := by
  refine ⟨rfl, rfl, ?_, rfl⟩
  simp [CredentialManager.validate_credential]

/-- C7: `validate_credential` records `now` as `last_validation` and the
validity outcome as `validation_result`; the returned result carries the
outcome, the timestamp of the check (`last_checked = some now`), and a
non-empty error message exactly when the credential is unusable; and a second
call at a later instant `now'` re-records `last_checked` at a value ≥ the
previously recorded one. -/
theorem validate_credential_spec (cm : CredentialManager) (now now' : ℚ)
    (hmono : now ≤ now') :
    (cm.validate_credential now).2.last_validation = some now ∧
    (cm.validate_credential now).2.validation_result
      = some cm.is_credential_valid ∧
    (cm.validate_credential now).1.is_valid = cm.is_credential_valid ∧
    (cm.validate_credential now).1.last_checked = some now ∧
    ((cm.validate_credential now).1.error ≠ none
      ↔ cm.is_credential_valid = false) ∧
    (∀ msg, (cm.validate_credential now).1.error = some msg → msg ≠ "") ∧
    ((cm.validate_credential now).2.validate_credential now').2.last_validation
      = some now' ∧
    (∀ prev, (cm.validate_credential now).2.last_validation = some prev →
      prev ≤ now') := by
  refine ⟨rfl, rfl, rfl, rfl, ?_, ?_, rfl, ?_⟩
  · simp only [CredentialManager.validate_credential]
    cases cm.is_credential_valid <;> simp
  · intro msg hmsg
    simp only [CredentialManager.validate_credential] at hmsg
    cases h : cm.is_credential_valid <;> simp [h] at hmsg
    subst hmsg
    decide
  · intro prev hprev
    simp only [CredentialManager.validate_credential, Option.some.injEq] at hprev
    exact hprev ▸ hmono

/-- Witness for C7 at the concrete scenario "identity unset": the second call
instant 1 is ≥ the first instant 0, and the validation result carries a
non-`none` error message. -/
theorem validate_credential_spec_witness :
    (0 : ℚ) ≤ 1 ∧
    ((CredentialManager.mk none none none).validate_credential 0).1.error
      ≠ none :=
  ⟨by norm_num,
   (validate_credential_spec (CredentialManager.mk none none none) 0 1
      (by norm_num)).2.2.2.2.1.mpr rfl⟩

/-- C1: `is_allowed` rejects without appending (the resulting record is
exactly the pruned list) whenever the pruned minute count has reached
`requests_per_minute` — in particular at exact equality, making the limit an
inclusive ceiling — or, failing that, whenever the pruned hour count has
reached `requests_per_hour`; otherwise it appends `now` to the pruned list
and admits. -/
theorem is_allowed_spec (rl : RateLimiter) (now : ℚ) (cmk chk : String) :
    (rl.requests_per_minute
        ≤ minute_count (cleanup_old_requests now rl.request_timestamps) now →
      (rl.is_allowed now cmk chk).1 = false ∧
      (rl.is_allowed now cmk chk).2.request_timestamps
        = cleanup_old_requests now rl.request_timestamps) ∧
    (minute_count (cleanup_old_requests now rl.request_timestamps) now
        < rl.requests_per_minute →
     rl.requests_per_hour
        ≤ hour_count (cleanup_old_requests now rl.request_timestamps) now →
      (rl.is_allowed now cmk chk).1 = false ∧
      (rl.is_allowed now cmk chk).2.request_timestamps
        = cleanup_old_requests now rl.request_timestamps) ∧
    (minute_count (cleanup_old_requests now rl.request_timestamps) now
        < rl.requests_per_minute →
     hour_count (cleanup_old_requests now rl.request_timestamps) now
        < rl.requests_per_hour →
      (rl.is_allowed now cmk chk).1 = true ∧
      (rl.is_allowed now cmk chk).2.request_timestamps
        = cleanup_old_requests now rl.request_timestamps ++ [now]) := by
  simp only [RateLimiter.is_allowed]
  refine ⟨fun h1 => ?_, fun h1 h2 => ?_, fun h1 h2 => ?_⟩
  · rw [if_pos h1]
    exact ⟨rfl, rfl⟩
  · rw [if_neg (by omega), if_pos h2]
    exact ⟨rfl, rfl⟩
  · rw [if_neg (by omega), if_neg (by omega)]
    exact ⟨rfl, rfl⟩

/-- Witness for C1: with one spent call recorded at instant 0 and
`requests_per_minute = 1`, a call at instant 0 arrives with
`minute_count == limit` and is rejected. -/
theorem is_allowed_spec_witness :
    (RateLimiter.mk 1 10 [(0 : ℚ)] (fun _ => 0) (fun _ => 0)).requests_per_minute
      ≤ minute_count
          (cleanup_old_requests 0
            (RateLimiter.mk 1 10 [(0 : ℚ)] (fun _ => 0)
              (fun _ => 0)).request_timestamps) 0 ∧
    ((RateLimiter.mk 1 10 [(0 : ℚ)] (fun _ => 0) (fun _ => 0)).is_allowed
        0 "m" "h").1 = false :=
  ⟨by norm_num [minute_count, cleanup_old_requests],
   ((is_allowed_spec (RateLimiter.mk 1 10 [(0 : ℚ)] (fun _ => 0) (fun _ => 0))
      0 "m" "h").1 (by norm_num [minute_count, cleanup_old_requests])).1⟩

/-- C5: `get_usage_stats` reports, for each window, the pruned count, the
configured limit, `remaining = max 0 (limit - count)` and
`percent_used = count/limit*100` (0 when the limit is 0); the resulting record
set is exactly the pruned list — a sublist of the previous record set, so no
new timestamp is appended — and the per-key counters are untouched. -/
theorem get_usage_stats_spec (rl : RateLimiter) (now : ℚ) :
    (rl.get_usage_stats now).1.current_minute.count
      = minute_count (cleanup_old_requests now rl.request_timestamps) now ∧
    (rl.get_usage_stats now).1.current_minute.limit = rl.requests_per_minute ∧
    (rl.get_usage_stats now).1.current_minute.remaining
      = max 0 ((rl.requests_per_minute : ℤ)
          - (minute_count (cleanup_old_requests now rl.request_timestamps) now
              : ℤ)) ∧
    (rl.get_usage_stats now).1.current_minute.percent_used
      = (if 0 < rl.requests_per_minute
          then (minute_count (cleanup_old_requests now rl.request_timestamps)
                  now : ℚ) / (rl.requests_per_minute : ℚ) * 100
          else 0) ∧
    (rl.get_usage_stats now).1.current_hour.count
      = hour_count (cleanup_old_requests now rl.request_timestamps) now ∧
    (rl.get_usage_stats now).1.current_hour.limit = rl.requests_per_hour ∧
    (rl.get_usage_stats now).1.current_hour.remaining
      = max 0 ((rl.requests_per_hour : ℤ)
          - (hour_count (cleanup_old_requests now rl.request_timestamps) now
              : ℤ)) ∧
    (rl.get_usage_stats now).1.current_hour.percent_used
      = (if 0 < rl.requests_per_hour
          then (hour_count (cleanup_old_requests now rl.request_timestamps)
                  now : ℚ) / (rl.requests_per_hour : ℚ) * 100
          else 0) ∧
    (rl.get_usage_stats now).2.request_timestamps
      = cleanup_old_requests now rl.request_timestamps ∧
    (rl.get_usage_stats now).2.request_timestamps.Sublist
      rl.request_timestamps ∧
    (rl.get_usage_stats now).2.requests_by_minute = rl.requests_by_minute ∧
    (rl.get_usage_stats now).2.requests_by_hour = rl.requests_by_hour := by
  refine ⟨rfl, rfl, rfl, rfl, rfl, rfl, rfl, rfl, rfl, ?_, rfl, rfl⟩
  exact List.filter_sublist _

/-- Auxiliary: erasing an element the filter rejects does not change the
filtered list. -/
theorem filter_erase_of_not {p : ℚ → Bool} {t : ℚ} (hp : p t = false) :
    ∀ l : List ℚ, (l.erase t).filter p = l.filter p := by
  intro l
  induction l with
  | nil => rfl
  | cons a l ih =>
    rw [List.erase_cons]
    by_cases h : a = t
    · subst h
      simp [List.filter_cons, hp]
    · rw [if_neg (by simp [h])]
      simp only [List.filter_cons]
      cases hpa : p a <;> simp [ih, hpa]

/-- C4: a recorded timestamp `t` older than 3600 seconds at the instant of a
subsequent `is_allowed` or `get_usage_stats` call survives in neither
resulting record set, and contributes to neither the minute nor the hour
count of that call: erasing it changes neither count. -/
theorem stale_timestamp_never_counted (rl : RateLimiter) (now t : ℚ)
    (cmk chk : String) (_hmem : t ∈ rl.request_timestamps)
    (hstale : 3600 < now - t) :
    t ∉ (rl.is_allowed now cmk chk).2.request_timestamps ∧
    t ∉ (rl.get_usage_stats now).2.request_timestamps ∧
    minute_count (cleanup_old_requests now rl.request_timestamps) now
      = minute_count (cleanup_old_requests now (rl.request_timestamps.erase t))
          now ∧
    hour_count (cleanup_old_requests now rl.request_timestamps) now
      = hour_count (cleanup_old_requests now (rl.request_timestamps.erase t))
          now := by
  have hpt : decide (now - t < 3600) = false := by
    simp only [decide_eq_false_iff_not, not_lt]
    linarith
  have hclean : t ∉ cleanup_old_requests now rl.request_timestamps := by
    intro hmem'
    rcases List.mem_filter.mp hmem' with ⟨_, hpt'⟩
    rw [hpt] at hpt'
    exact Bool.false_ne_true hpt'
  have hne : t ≠ now := by
    intro hEq
    rw [hEq, sub_self] at hstale
    exact absurd hstale (by norm_num)
  refine ⟨?_, ?_, ?_, ?_⟩
  · simp only [RateLimiter.is_allowed]
    split_ifs
    · exact hclean
    · exact hclean
    · intro hmem'
      rcases List.mem_append.mp hmem' with hIn | hIn
      · exact hclean hIn
      · exact hne (List.mem_singleton.mp hIn)
  · exact hclean
  · simp only [cleanup_old_requests]
    rw [filter_erase_of_not hpt]
  · simp only [cleanup_old_requests]
    rw [filter_erase_of_not hpt]

/-- Witness for C4: a lone timestamp at instant -4000, observed at instant 0,
is 4000 seconds old; it is dropped by `is_allowed` at instant 0. -/
theorem stale_timestamp_never_counted_witness :
    ((-4000 : ℚ) ∈ [(-4000 : ℚ)] ∧ (3600 : ℚ) < 0 - (-4000)) ∧
    (-4000 : ℚ) ∉
      ((RateLimiter.mk 5 5 [(-4000 : ℚ)] (fun _ => 0) (fun _ => 0)).is_allowed
        0 "m" "h").2.request_timestamps :=
  ⟨⟨by norm_num, by norm_num⟩,
   (stale_timestamp_never_counted
      (RateLimiter.mk 5 5 [(-4000 : ℚ)] (fun _ => 0) (fun _ => 0)) 0 (-4000)
      "m" "h" (by norm_num) (by norm_num)).1⟩

/-- C3 counterexample: with the identity unset (credential unusable) and a
minute limit of 0, `geonames_search` answers 429, not the claimed
401-equivalent — the Rate Governor is consulted first and is decisive.
Moreover, even when admission succeeds (default limits), the handler spends an
admission slot (a timestamp is recorded) before answering 401 on the unusable
credential, so the Rate Governor is invoked despite the invalid credential. -/
theorem geonames_search_rate_before_credential_cex :
    (CredentialManager.mk none none none).is_credential_valid = false ∧
    (geonames_search (CredentialManager.mk none none none)
        (RateLimiter.mk 0 100 [] (fun _ => 0) (fun _ => 0)) 0 "m" "h" none).1
      = 429 ∧
    (geonames_search (CredentialManager.mk none none none)
        (RateLimiter.mk 2000 10000 [] (fun _ => 0) (fun _ => 0)) 0 "m" "h"
        none).2.request_timestamps = [0] := by
  refine ⟨rfl, ?_, ?_⟩
  · norm_num [geonames_search, RateLimiter.is_allowed, minute_count,
      hour_count, cleanup_old_requests]
  · norm_num [geonames_search, RateLimiter.is_allowed, minute_count,
      hour_count, cleanup_old_requests, CredentialManager.is_credential_valid]

/-- C3 (amended): both handlers consult the Rate Governor first and answer 429
on rejection without reaching the credential check; only when admission
succeeds do they consult the Credential Gate, answering 401 when the
credential is unusable; the upstream result is consulted only when both pass
(500 when the service returns None, 200 otherwise). -/
theorem geonames_handlers_gate_order (cm : CredentialManager)
    (rl : RateLimiter) (now : ℚ) (cmk chk : String) (sr : Option Unit) :
    ((rl.is_allowed now cmk chk).1 = false →
      geonames_search cm rl now cmk chk sr
        = (429, (rl.is_allowed now cmk chk).2) ∧
      geonames_timezone cm rl now cmk chk sr
        = (429, (rl.is_allowed now cmk chk).2)) ∧
    ((rl.is_allowed now cmk chk).1 = true → cm.is_credential_valid = false →
      (geonames_search cm rl now cmk chk sr).1 = 401 ∧
      (geonames_timezone cm rl now cmk chk sr).1 = 401) ∧
    ((rl.is_allowed now cmk chk).1 = true → cm.is_credential_valid = true →
      (geonames_search cm rl now cmk chk sr).1
        = (match sr with | none => 500 | some _ => 200) ∧
      (geonames_timezone cm rl now cmk chk sr).1
        = (match sr with | none => 500 | some _ => 200)) := by
  refine ⟨fun h => ?_, fun h hc => ?_, fun h hc => ?_⟩
  · simp [geonames_search, geonames_timezone, h]
  · simp [geonames_search, geonames_timezone, h, hc]
  · cases sr <;> simp [geonames_search, geonames_timezone, h, hc]

/-- Witness for the amended C3: fresh limiter with default limits admits the
call, the unset identity is unusable, and the handler answers 401. -/
theorem geonames_handlers_gate_order_witness :
    ((RateLimiter.mk 2000 10000 [] (fun _ => 0) (fun _ => 0)).is_allowed
        0 "m" "h").1 = true ∧
    (CredentialManager.mk none none none).is_credential_valid = false ∧
    (geonames_search (CredentialManager.mk none none none)
        (RateLimiter.mk 2000 10000 [] (fun _ => 0) (fun _ => 0)) 0 "m" "h"
        none).1 = 401 :=
  ⟨by norm_num [RateLimiter.is_allowed, minute_count, hour_count,
      cleanup_old_requests],
   rfl,
   ((geonames_handlers_gate_order (CredentialManager.mk none none none)
      (RateLimiter.mk 2000 10000 [] (fun _ => 0) (fun _ => 0)) 0 "m" "h"
      none).2.1
      (by norm_num [RateLimiter.is_allowed, minute_count, hour_count,
        cleanup_old_requests])
      rfl).1⟩

/-- Auxiliary: the admission verdict of `is_allowed` depends only on the
limits and on the pruned record set. -/
theorem is_allowed_fst_congr (rl₁ rl₂ : RateLimiter) (now : ℚ)
    (cmk chk : String)
    (hm : rl₁.requests_per_minute = rl₂.requests_per_minute)
    (hh : rl₁.requests_per_hour = rl₂.requests_per_hour)
    (hts : cleanup_old_requests now rl₁.request_timestamps
      = cleanup_old_requests now rl₂.request_timestamps) :
    (rl₁.is_allowed now cmk chk).1 = (rl₂.is_allowed now cmk chk).1 := by
  simp only [RateLimiter.is_allowed, hm, hh, hts]
  split_ifs <;> rfl

/-- Auxiliary: pruning at an earlier instant never changes a later pruning. -/
theorem cleanup_cleanup (t now : ℚ) (l : List ℚ) (h : t ≤ now) :
    cleanup_old_requests now (cleanup_old_requests t l)
      = cleanup_old_requests now l := by
  simp only [cleanup_old_requests]
  rw [List.filter_filter]
  refine List.filter_congr ?_
  intro a _
  cases hna : decide (now - a < 3600) with
  | false => simp
  | true =>
    have h1 : now - a < 3600 := of_decide_eq_true hna
    have h2 : t - a < 3600 := by linarith
    simp [h2]

/-- Iterating `get_usage_stats` at the listed instants, threading the state. -/
def apply_snapshots (rl : RateLimiter) : List ℚ → RateLimiter
  | [] => rl
  | t :: rest => apply_snapshots (rl.get_usage_stats t).2 rest

/-- Auxiliary: any run of snapshots at instants ≤ `now` preserves the limits
and the pruned-at-`now` record set. -/
theorem apply_snapshots_cleanup (now : ℚ) :
    ∀ (times : List ℚ) (rl : RateLimiter), (∀ t ∈ times, t ≤ now) →
      (apply_snapshots rl times).requests_per_minute
        = rl.requests_per_minute ∧
      (apply_snapshots rl times).requests_per_hour = rl.requests_per_hour ∧
      cleanup_old_requests now (apply_snapshots rl times).request_timestamps
        = cleanup_old_requests now rl.request_timestamps := by
  intro times
  induction times with
  | nil => exact fun rl _ => ⟨rfl, rfl, rfl⟩
  | cons t rest ih =>
    intro rl h
    have h1 : t ≤ now := h t (List.mem_cons_self _ _)
    have h2 : ∀ s ∈ rest, s ≤ now := fun s hs => h s (List.mem_cons_of_mem _ hs)
    obtain ⟨hm, hh, hts⟩ := ih (rl.get_usage_stats t).2 h2
    refine ⟨?_, ?_, ?_⟩
    · simpa [apply_snapshots] using hm
    · simpa [apply_snapshots] using hh
    · simp only [apply_snapshots] at hts ⊢
      rw [hts]
      exact cleanup_cleanup t now _ h1

/-- C6: interposing any number of `get_usage_stats` calls (at instants no
later than the admission instant, time being monotone) never changes the
verdict of a following `is_allowed` call. -/
theorem usage_stats_idempotent_for_admission (rl : RateLimiter)
    (times : List ℚ) (now : ℚ) (cmk chk : String)
    (h : ∀ t ∈ times, t ≤ now) :
    ((apply_snapshots rl times).is_allowed now cmk chk).1
      = (rl.is_allowed now cmk chk).1 := by
  obtain ⟨hm, hh, hts⟩ := apply_snapshots_cleanup now times rl h
  exact is_allowed_fst_congr _ _ _ _ _ hm hh hts

/-- Witness for C6: one snapshot at instant 10 before an admission at
instant 20 leaves the verdict unchanged. -/
theorem usage_stats_idempotent_for_admission_witness :
    (∀ t ∈ [(10 : ℚ)], t ≤ (20 : ℚ)) ∧
    ((apply_snapshots
        (RateLimiter.mk 1 10 [(5 : ℚ)] (fun _ => 0) (fun _ => 0))
        [(10 : ℚ)]).is_allowed 20 "m" "h").1
      = ((RateLimiter.mk 1 10 [(5 : ℚ)] (fun _ => 0)
          (fun _ => 0)).is_allowed 20 "m" "h").1 :=
  ⟨by norm_num,
   usage_stats_idempotent_for_admission
     (RateLimiter.mk 1 10 [(5 : ℚ)] (fun _ => 0) (fun _ => 0)) [(10 : ℚ)] 20
     "m" "h" (by norm_num)⟩

/-- Auxiliary: pruning keeps every timestamp at most 60 seconds old. -/
theorem cleanup_of_recent (t : ℚ) (l : List ℚ)
    (hall : ∀ s ∈ l, t - s ≤ 60) : cleanup_old_requests t l = l :=
  List.filter_eq_self.mpr (fun s hs => by
    simp only [decide_eq_true_eq]
    linarith [hall s hs])

/-- Auxiliary: the minute window holds every timestamp at most 60 seconds
old. -/
theorem minute_count_of_recent (t : ℚ) (l : List ℚ)
    (hall : ∀ s ∈ l, t - s ≤ 60) : minute_count l t = l.length := by
  unfold minute_count
  rw [List.filter_eq_self.mpr (fun s hs => by
    simp only [decide_eq_true_eq]
    linarith [hall s hs])]

/-- Auxiliary: the hour window holds every timestamp at most 60 seconds
old. -/
theorem hour_count_of_recent (t : ℚ) (l : List ℚ)
    (hall : ∀ s ∈ l, t - s ≤ 60) : hour_count l t = l.length := by
  unfold hour_count
  rw [List.filter_eq_self.mpr (fun s hs => by
    simp only [decide_eq_true_eq]
    linarith [hall s hs])]

/-- Auxiliary: when every recorded timestamp is at most 60 seconds old and
the minute window is at capacity, `is_allowed` rejects and leaves the state
intact. -/
theorem is_allowed_reject_of_minute_full (rl : RateLimiter) (t : ℚ)
    (cmk chk : String) (hall : ∀ s ∈ rl.request_timestamps, t - s ≤ 60)
    (hfull : rl.requests_per_minute ≤ rl.request_timestamps.length) :
    rl.is_allowed t cmk chk = (false, rl) := by
  simp only [RateLimiter.is_allowed, cleanup_of_recent t _ hall,
    minute_count_of_recent t _ hall]
  rw [if_pos hfull]

/-- Auxiliary: when every recorded timestamp is at most 60 seconds old and
both windows are strictly under capacity, `is_allowed` admits and appends. -/
theorem is_allowed_admit_components (rl : RateLimiter) (t : ℚ)
    (cmk chk : String) (hall : ∀ s ∈ rl.request_timestamps, t - s ≤ 60)
    (hmlt : rl.request_timestamps.length < rl.requests_per_minute)
    (hhlt : rl.request_timestamps.length < rl.requests_per_hour) :
    (rl.is_allowed t cmk chk).1 = true ∧
    (rl.is_allowed t cmk chk).2.request_timestamps
      = rl.request_timestamps ++ [t] := by
  simp only [RateLimiter.is_allowed, cleanup_of_recent t _ hall,
    minute_count_of_recent t _ hall, hour_count_of_recent t _ hall]
  rw [if_neg (by omega), if_neg (by omega)]
  exact ⟨rfl, rfl⟩

/-- Auxiliary: `is_allowed` never changes the configured limits. -/
theorem is_allowed_preserves_limits (rl : RateLimiter) (t : ℚ)
    (cmk chk : String) :
    (rl.is_allowed t cmk chk).2.requests_per_minute = rl.requests_per_minute ∧
    (rl.is_allowed t cmk chk).2.requests_per_hour = rl.requests_per_hour := by
  simp only [RateLimiter.is_allowed]
  split_ifs <;> exact ⟨rfl, rfl⟩

/-- A sequence of `is_allowed` calls at the listed instants, threading the
state and collecting the verdicts in call order (the per-key dict arguments,
irrelevant to admission, are fixed). -/
def run_calls (rl : RateLimiter) : List ℚ → List Bool × RateLimiter
  | [] => ([], rl)
  | t :: rest =>
      let tail := run_calls (rl.is_allowed t "" "").2 rest
      ((rl.is_allowed t "" "").1 :: tail.1, tail.2)

/-- Auxiliary induction for C2: starting from any state whose recorded
timestamps, together with the instants of the pending calls, all fit in one
60-second span in order, the next `limit - spent` calls are admitted and all
later calls rejected. -/
theorem run_calls_invariant (L H : ℕ) (hLH : L ≤ H) :
    ∀ (times : List ℚ) (rl : RateLimiter),
      rl.requests_per_minute = L → rl.requests_per_hour = H →
      List.Pairwise (fun a b : ℚ => a ≤ b ∧ b - a ≤ 60)
        (rl.request_timestamps ++ times) →
      rl.request_timestamps.length ≤ L →
      (run_calls rl times).1
        = List.replicate (min times.length (L - rl.request_timestamps.length))
            true
          ++ List.replicate
              (times.length - (L - rl.request_timestamps.length)) false ∧
      (run_calls rl times).2.request_timestamps
        = rl.request_timestamps
            ++ times.take (L - rl.request_timestamps.length) := by
  intro times
  induction times with
  | nil =>
    intro rl hm hh hpw hlen
    exact ⟨by simp [run_calls], by simp [run_calls]⟩
  | cons t rest ih =>
    intro rl hm hh hpw hlen
    have hcross : ∀ a ∈ rl.request_timestamps, ∀ b ∈ t :: rest,
        a ≤ b ∧ b - a ≤ 60 := (List.pairwise_append.mp hpw).2.2
    have hbase : ∀ s ∈ rl.request_timestamps, t - s ≤ 60 :=
      fun s hs => (hcross s hs t (List.mem_cons_self _ _)).2
    rcases Nat.lt_or_ge rl.request_timestamps.length L with hspare | hfull
    · -- capacity left in the minute window: the call is admitted
      have hstep := is_allowed_admit_components rl t "" "" hbase
        (by omega) (by omega)
      have hlim := is_allowed_preserves_limits rl t "" ""
      have hpw' : List.Pairwise (fun a b : ℚ => a ≤ b ∧ b - a ≤ 60)
          ((rl.is_allowed t "" "").2.request_timestamps ++ rest) := by
        rw [hstep.2, List.append_assoc, List.singleton_append]
        exact hpw
      obtain ⟨ihres, ihts⟩ := ih (rl.is_allowed t "" "").2
        (by rw [hlim.1, hm]) (by rw [hlim.2, hh]) hpw'
        (by rw [hstep.2]; simp; omega)
      have hk : L - rl.request_timestamps.length
          = (L - ((rl.is_allowed t "" "").2.request_timestamps.length)) + 1 := by
        rw [hstep.2]
        simp
        omega
      constructor
      · simp only [run_calls, hstep.1, ihres, List.length_cons, hk,
          Nat.succ_min_succ, Nat.succ_sub_succ, List.replicate_succ,
          List.cons_append]
      · simp only [run_calls, ihts, hstep.2, hk, List.take_succ_cons,
          List.append_assoc, List.singleton_append]
    · -- minute window at capacity: the call is rejected, state unchanged
      have hstep := is_allowed_reject_of_minute_full rl t "" "" hbase
        (by omega)
      have hpw' : List.Pairwise (fun a b : ℚ => a ≤ b ∧ b - a ≤ 60)
          (rl.request_timestamps ++ rest) :=
        hpw.sublist ((List.sublist_cons_self t rest).append_left _)
      obtain ⟨ihres, ihts⟩ := ih rl hm hh hpw' hlen
      have h0 : L - rl.request_timestamps.length = 0 := by omega
      constructor
      · simp only [run_calls, hstep, ihres, List.length_cons, h0,
          Nat.min_zero, List.replicate, List.nil_append, Nat.sub_zero,
          List.replicate_succ]
      · simp only [run_calls, hstep, ihts, h0, List.take_zero,
          List.append_nil]

/-- C2: on a fresh governor with minute limit `L` and hour limit at least
`L`, any `N` calls issued within a single 60-second span (instants in
nondecreasing order, pairwise at most 60 seconds apart) yield exactly
`min N L` admissions, and they are the first `min N L` calls in issue order;
every later call in the span is rejected. -/
theorem run_calls_fresh_minute_window (L H : ℕ) (times : List ℚ)
    (hLH : L ≤ H)
    (hpw : List.Pairwise (fun a b : ℚ => a ≤ b ∧ b - a ≤ 60) times) :
    (run_calls (RateLimiter.init L H) times).1
      = List.replicate (min times.length L) true
        ++ List.replicate (times.length - L) false := by
  have h := (run_calls_invariant L H hLH times (RateLimiter.init L H) rfl rfl
    (by simpa [RateLimiter.init] using hpw) (by simp [RateLimiter.init])).1
  simpa [RateLimiter.init] using h

/-- Witness for C2 at the spec's concrete scenario: minute limit 2, hour
limit 100, three back-to-back calls (all at instant 0) give
[true, true, false]. -/
theorem run_calls_fresh_minute_window_witness :
    (2 ≤ 100 ∧ List.Pairwise (fun a b : ℚ => a ≤ b ∧ b - a ≤ 60)
        [(0 : ℚ), 0, 0]) ∧
    (run_calls (RateLimiter.init 2 100) [(0 : ℚ), 0, 0]).1
      = [true, true, false] :=
  ⟨⟨by norm_num, by norm_num⟩,
   by
    rw [run_calls_fresh_minute_window 2 100 [(0 : ℚ), 0, 0] (by norm_num)
      (by norm_num)]
    rfl⟩

/-- One public Rate Governor operation together with its call instant. -/
inductive GovernorOp
  | acquire (now : ℚ) (cmk chk : String)
  | snapshot (now : ℚ)

/-- The call instant of a governor operation. -/
def GovernorOp.time : GovernorOp → ℚ
  | .acquire t _ _ => t
  | .snapshot t => t

/-- Run a sequence of governor operations, threading the state and discarding
the outputs. -/
def run_ops (rl : RateLimiter) : List GovernorOp → RateLimiter
  | [] => rl
  | .acquire t cmk chk :: rest => run_ops (rl.is_allowed t cmk chk).2 rest
  | .snapshot t :: rest => run_ops (rl.get_usage_stats t).2 rest

/-- The two-window safety invariant: every recorded timestamp is at most `τ`,
and at every instant from `τ` on, the windowed counts over the full record
set stay within the configured limits. -/
def bounded_after (rl : RateLimiter) (τ : ℚ) : Prop :=
  (∀ s ∈ rl.request_timestamps, s ≤ τ) ∧
  ∀ t, τ ≤ t →
    minute_count rl.request_timestamps t ≤ rl.requests_per_minute ∧
    hour_count rl.request_timestamps t ≤ rl.requests_per_hour

/-- Auxiliary: moving the observation instant later never grows the minute
window. -/
theorem minute_count_anti (l : List ℚ) (t t' : ℚ) (h : t ≤ t') :
    minute_count l t' ≤ minute_count l t :=
  (List.monotone_filter_right l (fun a ha => by
    simp only [decide_eq_true_eq] at ha ⊢
    linarith)).length_le

/-- Auxiliary: moving the observation instant later never grows the hour
window. -/
theorem hour_count_anti (l : List ℚ) (t t' : ℚ) (h : t ≤ t') :
    hour_count l t' ≤ hour_count l t :=
  (List.monotone_filter_right l (fun a ha => by
    simp only [decide_eq_true_eq] at ha ⊢
    linarith)).length_le

/-- Auxiliary: the minute window is monotone in the record set. -/
theorem minute_count_sublist (t : ℚ) {l₁ l₂ : List ℚ} (h : l₁.Sublist l₂) :
    minute_count l₁ t ≤ minute_count l₂ t :=
  (h.filter _).length_le

/-- Auxiliary: the hour window is monotone in the record set. -/
theorem hour_count_sublist (t : ℚ) {l₁ l₂ : List ℚ} (h : l₁.Sublist l₂) :
    hour_count l₁ t ≤ hour_count l₂ t :=
  (h.filter _).length_le

/-- Auxiliary: appending one timestamp grows a window by at most one. -/
theorem minute_count_append_singleton (l : List ℚ) (x t : ℚ) :
    minute_count (l ++ [x]) t ≤ minute_count l t + 1 := by
  unfold minute_count
  rw [List.filter_append, List.length_append]
  have : (List.filter (fun ts => decide (t - ts ≤ 60)) [x]).length ≤ 1 :=
    (List.filter_sublist _).length_le
  omega

/-- Auxiliary: appending one timestamp grows a window by at most one. -/
theorem hour_count_append_singleton (l : List ℚ) (x t : ℚ) :
    hour_count (l ++ [x]) t ≤ hour_count l t + 1 := by
  unfold hour_count
  rw [List.filter_append, List.length_append]
  have : (List.filter (fun ts => decide (t - ts ≤ 3600)) [x]).length ≤ 1 :=
    (List.filter_sublist _).length_le
  omega

/-- Auxiliary: `is_allowed` preserves the two-window invariant, re-anchored
at the call instant. -/
theorem bounded_after_is_allowed (rl : RateLimiter) (τ now : ℚ)
    (cmk chk : String) (hb : bounded_after rl τ) (hle : τ ≤ now) :
    bounded_after (rl.is_allowed now cmk chk).2 now := by
  obtain ⟨hel, hcnt⟩ := hb
  have hclean_sub : (cleanup_old_requests now rl.request_timestamps).Sublist
      rl.request_timestamps := List.filter_sublist _
  have hel' : ∀ s ∈ cleanup_old_requests now rl.request_timestamps, s ≤ now :=
    fun s hs => le_trans (hel s (hclean_sub.mem hs)) hle
  simp only [RateLimiter.is_allowed]
  split_ifs with h1 h2
  · refine ⟨hel', fun t ht => ?_⟩
    exact ⟨le_trans (minute_count_sublist t hclean_sub)
        ((hcnt t (le_trans hle ht)).1),
      le_trans (hour_count_sublist t hclean_sub)
        ((hcnt t (le_trans hle ht)).2)⟩
  · refine ⟨hel', fun t ht => ?_⟩
    exact ⟨le_trans (minute_count_sublist t hclean_sub)
        ((hcnt t (le_trans hle ht)).1),
      le_trans (hour_count_sublist t hclean_sub)
        ((hcnt t (le_trans hle ht)).2)⟩
  · push_neg at h1 h2
    refine ⟨?_, fun t ht => ?_⟩
    · intro s hs
      rcases List.mem_append.mp hs with hIn | hIn
      · exact hel' s hIn
      · rw [List.mem_singleton.mp hIn]
    · constructor
      · calc minute_count
              (cleanup_old_requests now rl.request_timestamps ++ [now]) t
            ≤ minute_count (cleanup_old_requests now rl.request_timestamps) t
                + 1 := minute_count_append_singleton _ _ _
          _ ≤ minute_count (cleanup_old_requests now rl.request_timestamps)
                now + 1 := by
              have := minute_count_anti
                (cleanup_old_requests now rl.request_timestamps) now t ht
              omega
          _ ≤ rl.requests_per_minute := by omega
      · calc hour_count
              (cleanup_old_requests now rl.request_timestamps ++ [now]) t
            ≤ hour_count (cleanup_old_requests now rl.request_timestamps) t
                + 1 := hour_count_append_singleton _ _ _
          _ ≤ hour_count (cleanup_old_requests now rl.request_timestamps)
                now + 1 := by
              have := hour_count_anti
                (cleanup_old_requests now rl.request_timestamps) now t ht
              omega
          _ ≤ rl.requests_per_hour := by omega

/-- Auxiliary: `get_usage_stats` preserves the two-window invariant,
re-anchored at the call instant. -/
theorem bounded_after_stats (rl : RateLimiter) (τ now : ℚ)
    (hb : bounded_after rl τ) (hle : τ ≤ now) :
    bounded_after (rl.get_usage_stats now).2 now := by
  obtain ⟨hel, hcnt⟩ := hb
  have hclean_sub : (cleanup_old_requests now rl.request_timestamps).Sublist
      rl.request_timestamps := List.filter_sublist _
  refine ⟨fun s hs => le_trans (hel s (hclean_sub.mem hs)) hle,
    fun t ht => ?_⟩
  exact ⟨le_trans (minute_count_sublist t hclean_sub)
      ((hcnt t (le_trans hle ht)).1),
    le_trans (hour_count_sublist t hclean_sub)
      ((hcnt t (le_trans hle ht)).2)⟩

/-- Auxiliary: `run_ops` never changes the configured limits. -/
theorem run_ops_preserves_limits :
    ∀ (ops : List GovernorOp) (rl : RateLimiter),
      (run_ops rl ops).requests_per_minute = rl.requests_per_minute ∧
      (run_ops rl ops).requests_per_hour = rl.requests_per_hour := by
  intro ops
  induction ops with
  | nil => exact fun rl => ⟨rfl, rfl⟩
  | cons op rest ih =>
    intro rl
    cases op with
    | acquire t cmk chk =>
      obtain ⟨hm, hh⟩ := ih (rl.is_allowed t cmk chk).2
      have hlim := is_allowed_preserves_limits rl t cmk chk
      exact ⟨by simp only [run_ops]; rw [hm, hlim.1],
        by simp only [run_ops]; rw [hh, hlim.2]⟩
    | snapshot t =>
      obtain ⟨hm, hh⟩ := ih (rl.get_usage_stats t).2
      exact ⟨by simp only [run_ops]; rw [hm]; rfl,
        by simp only [run_ops]; rw [hh]; rfl⟩

/-- Auxiliary: running operations at nondecreasing instants preserves the
invariant, anchored at the running maximum of the instants. -/
theorem run_ops_bounded :
    ∀ (ops : List GovernorOp) (rl : RateLimiter) (τ : ℚ),
      bounded_after rl τ →
      List.Chain' (fun a b : ℚ => a ≤ b) (τ :: ops.map GovernorOp.time) →
      bounded_after (run_ops rl ops)
        ((ops.map GovernorOp.time).foldl max τ) := by
  intro ops
  induction ops with
  | nil => exact fun rl τ hb _ => hb
  | cons op rest ih =>
    intro rl τ hb hchain
    rw [List.map_cons, List.chain'_cons] at hchain
    obtain ⟨hstep, hchain'⟩ := hchain
    have hmax : max τ op.time = op.time := max_eq_right hstep
    have hnext : bounded_after
        (match op with
          | .acquire t cmk chk => (rl.is_allowed t cmk chk).2
          | .snapshot t => (rl.get_usage_stats t).2) op.time := by
      cases op with
      | acquire t cmk chk => exact bounded_after_is_allowed rl τ t cmk chk hb hstep
      | snapshot t => exact bounded_after_stats rl τ t hb hstep
    cases op with
    | acquire t cmk chk =>
      have h := ih (rl.is_allowed t cmk chk).2 t hnext hchain'
      simpa [run_ops, List.foldl_cons, hmax] using h
    | snapshot t =>
      have h := ih (rl.get_usage_stats t).2 t hnext hchain'
      simpa [run_ops, List.foldl_cons, hmax] using h

/-- Auxiliary: a left fold of `max` stays below any common upper bound. -/
theorem foldl_max_le_of_le :
    ∀ (l : List ℚ) (a b : ℚ), a ≤ b → (∀ x ∈ l, x ≤ b) →
      l.foldl max a ≤ b := by
  intro l
  induction l with
  | nil => exact fun a b h _ => h
  | cons x rest ih =>
    intro a b h hall
    rw [List.foldl_cons]
    exact ih (max a x) b
      (max_le h (hall x (List.mem_cons_self _ _)))
      (fun y hy => hall y (List.mem_cons_of_mem _ hy))

/-- C10: starting from a fresh governor, after any sequence of `is_allowed`
and `get_usage_stats` calls at nondecreasing instants, at any instant `t` no
earlier than every call the recorded timestamps within the trailing 60
seconds never exceed the minute limit and those within the trailing 3600
seconds never exceed the hour limit; consequently a usage report taken at `t`
has `remaining ≥ 0` in both windows and, for a positive limit,
`percent_used ≤ 100`. -/
theorem governor_never_exceeds_limits (L H : ℕ) (ops : List GovernorOp)
    (t : ℚ)
    (hchain : List.Chain' (fun a b : ℚ => a ≤ b) (ops.map GovernorOp.time))
    (hle : ∀ s ∈ ops.map GovernorOp.time, s ≤ t) :
    minute_count (run_ops (RateLimiter.init L H) ops).request_timestamps t
      ≤ L ∧
    hour_count (run_ops (RateLimiter.init L H) ops).request_timestamps t
      ≤ H ∧
    0 ≤ ((run_ops (RateLimiter.init L H) ops).get_usage_stats
          t).1.current_minute.remaining ∧
    0 ≤ ((run_ops (RateLimiter.init L H) ops).get_usage_stats
          t).1.current_hour.remaining ∧
    (0 < L → ((run_ops (RateLimiter.init L H) ops).get_usage_stats
          t).1.current_minute.percent_used ≤ 100) ∧
    (0 < H → ((run_ops (RateLimiter.init L H) ops).get_usage_stats
          t).1.current_hour.percent_used ≤ 100) := by
  have hb0 : bounded_after (RateLimiter.init L H)
      ((ops.map GovernorOp.time).headD t) := by
    constructor
    · intro s hs
      simp [RateLimiter.init] at hs
    · intro u _
      simp [RateLimiter.init, minute_count, hour_count]
  have hchain0 : List.Chain' (fun a b : ℚ => a ≤ b)
      ((ops.map GovernorOp.time).headD t :: ops.map GovernorOp.time) := by
    cases hmap : ops.map GovernorOp.time with
    | nil => simp
    | cons s rest =>
      rw [hmap] at hchain
      simp only [List.headD_cons]
      exact List.chain'_cons.mpr ⟨le_refl s, hchain⟩
  have hhead : (ops.map GovernorOp.time).headD t ≤ t := by
    cases hmap : ops.map GovernorOp.time with
    | nil => simp
    | cons s rest =>
      simp only [List.headD_cons]
      exact hle s (by rw [hmap]; exact List.mem_cons_self _ _)
  have hbf := run_ops_bounded ops (RateLimiter.init L H) _ hb0 hchain0
  have hτfin : (ops.map GovernorOp.time).foldl max
      ((ops.map GovernorOp.time).headD t) ≤ t :=
    foldl_max_le_of_le _ _ t hhead hle
  obtain ⟨hmc, hhc⟩ := hbf.2 t hτfin
  have hlim := run_ops_preserves_limits ops (RateLimiter.init L H)
  have hmL : (run_ops (RateLimiter.init L H) ops).requests_per_minute = L :=
    hlim.1
  have hhH : (run_ops (RateLimiter.init L H) ops).requests_per_hour = H :=
    hlim.2
  rw [hmL] at hmc
  rw [hhH] at hhc
  have hmcS : minute_count
      (cleanup_old_requests t
        (run_ops (RateLimiter.init L H) ops).request_timestamps) t ≤ L :=
    le_trans (minute_count_sublist t (List.filter_sublist _)) hmc
  have hhcS : hour_count
      (cleanup_old_requests t
        (run_ops (RateLimiter.init L H) ops).request_timestamps) t ≤ H :=
    le_trans (hour_count_sublist t (List.filter_sublist _)) hhc
  refine ⟨hmc, hhc, le_max_left 0 _, le_max_left 0 _, ?_, ?_⟩
  · intro hL
    have hLpos : (0 : ℚ) < (L : ℚ) := by exact_mod_cast hL
    have hq : (minute_count
        (cleanup_old_requests t
          (run_ops (RateLimiter.init L H) ops).request_timestamps) t : ℚ)
        ≤ (L : ℚ) := by exact_mod_cast hmcS
    show (if 0 < (run_ops (RateLimiter.init L H) ops).requests_per_minute
        then (minute_count
            (cleanup_old_requests t
              (run_ops (RateLimiter.init L H) ops).request_timestamps) t : ℚ)
          / ((run_ops (RateLimiter.init L H) ops).requests_per_minute : ℚ)
          * 100
        else 0) ≤ 100
    rw [hmL, if_pos hL]
    have h1 : (minute_count
        (cleanup_old_requests t
          (run_ops (RateLimiter.init L H) ops).request_timestamps) t : ℚ)
        / (L : ℚ) ≤ 1 := by
      rw [div_le_one hLpos]
      exact hq
    calc (minute_count
          (cleanup_old_requests t
            (run_ops (RateLimiter.init L H) ops).request_timestamps) t : ℚ)
          / (L : ℚ) * 100
        ≤ 1 * 100 := mul_le_mul_of_nonneg_right h1 (by norm_num)
      _ = 100 := by norm_num
  · intro hH
    have hHpos : (0 : ℚ) < (H : ℚ) := by exact_mod_cast hH
    have hq : (hour_count
        (cleanup_old_requests t
          (run_ops (RateLimiter.init L H) ops).request_timestamps) t : ℚ)
        ≤ (H : ℚ) := by exact_mod_cast hhcS
    show (if 0 < (run_ops (RateLimiter.init L H) ops).requests_per_hour
        then (hour_count
            (cleanup_old_requests t
              (run_ops (RateLimiter.init L H) ops).request_timestamps) t : ℚ)
          / ((run_ops (RateLimiter.init L H) ops).requests_per_hour : ℚ)
          * 100
        else 0) ≤ 100
    rw [hhH, if_pos hH]
    have h1 : (hour_count
        (cleanup_old_requests t
          (run_ops (RateLimiter.init L H) ops).request_timestamps) t : ℚ)
        / (H : ℚ) ≤ 1 := by
      rw [div_le_one hHpos]
      exact hq
    calc (hour_count
          (cleanup_old_requests t
            (run_ops (RateLimiter.init L H) ops).request_timestamps) t : ℚ)
          / (H : ℚ) * 100
        ≤ 1 * 100 := mul_le_mul_of_nonneg_right h1 (by norm_num)
      _ = 100 := by norm_num

/-- Witness for C10: two back-to-back admission attempts at instant 0 against
limits 1/1 leave at most one timestamp in the minute window at instant 0. -/
theorem governor_never_exceeds_limits_witness :
    (List.Chain' (fun a b : ℚ => a ≤ b)
        ([GovernorOp.acquire 0 "m" "h",
          GovernorOp.acquire 0 "m" "h"].map GovernorOp.time) ∧
      ∀ s ∈ [GovernorOp.acquire 0 "m" "h",
          GovernorOp.acquire 0 "m" "h"].map GovernorOp.time, s ≤ (0 : ℚ)) ∧
    minute_count
      (run_ops (RateLimiter.init 1 1)
        [GovernorOp.acquire 0 "m" "h",
         GovernorOp.acquire 0 "m" "h"]).request_timestamps 0 ≤ 1 :=
  ⟨⟨by simp [GovernorOp.time],
    by simp [GovernorOp.time]⟩,
   (governor_never_exceeds_limits 1 1
      [GovernorOp.acquire 0 "m" "h", GovernorOp.acquire 0 "m" "h"] 0
      (by simp [GovernorOp.time])
      (by simp [GovernorOp.time])).1⟩

end AstroGeo
